import Mathlib

/-!
Shallow embedding of the simulation core of the `pacman_rust` repository
(maze grid, base-entity motion primitives, ghost AI, collision system,
scoring system, timers and the game state machine), together with proofs
about the properties its specification states.

Conventions of the embedding:

* Rust `i16` pixel coordinates are modelled as `Int`.  All positions that
  arise in play are a few hundred units, far from the `i16` boundary, and
  every theorem below that involves arithmetic on coordinates either holds
  for all integers or is evaluated at small concrete inputs, so two's
  complement wrap never has to be modelled.
* Rust `u16` / `u8` counters are modelled as `Nat` with an explicit
  `% 2 ^ 16` (resp. `% 2 ^ 8`) at each arithmetic step that the source
  performs on the machine type.
* `f32` enters the source in exactly two places.  (1) `wall_collision`
  and `food_collision` convert a pixel coordinate `v` to the fractional
  cell coordinate `v as f32 / 24.0` and take its floor and ceiling.  For
  `|v| ≤ 32767` the conversion of `v` to `f32` is exact and the correctly
  rounded quotient is within `6e-8` relative error of `v / 24`, while the
  nearest non-integer rationals of the form `v / 24` are `1/24` away from
  an integer, so floor and ceiling of the `f32` quotient agree with the
  exact rational floor and ceiling; the embedding therefore uses exact
  rational division.  (2) `Ghost::calculate_direction` sorts candidate
  headings by the `f32` square root of an integer-valued squared distance.
  The embedding sorts by the exact squared distance (square root is
  monotone); the no-reversal theorem proved about it is additionally
  established for an arbitrary permutation of the surviving candidates
  (`scanSelect_ne_reverse`), so it is independent of the order produced
  by floating point comparison.
* Wall-clock `Instant`s are modelled by passing an explicit `now : Nat`
  (milliseconds) to every timer operation, as the spec itself suggests.
-/

namespace PacmanRust

/-- `BlockType` from `src/board.rs`. -/
inductive BlockType
  | wall
  | door
  | pellet
  | energizer
  | nothing
  deriving DecidableEq, Repr

/-- `Direction` from `src/board.rs`. -/
inductive Direction
  | right
  | up
  | left
  | down
  | nowhere
  deriving DecidableEq, Repr

/-- `Position` from `src/position.rs` (a pair of `i16` pixel coordinates). -/
structure Position where
  x : Int
  y : Int
  deriving DecidableEq, Repr

def BOARD_WIDTH : Nat := 28

def BOARD_HEIGHT : Nat := 36

def BLOCK_SIZE_24 : Int := 24

def WINDOW_WIDTH : Int := 28 * 24

/-- The session maze grid `actual_map: [BlockType; BOARD_HEIGHT * BOARD_WIDTH]`,
modelled as a list of cells indexed by `row * BOARD_WIDTH + col`. -/
abbrev GameMap := List BlockType

end PacmanRust

/-! ## Base entity primitives (`src/entity/base_entity.rs`) -/

namespace PacmanRust

/-- `BaseEntity::get_possible_position`: pure one-unit lookahead step. -/
def get_possible_position (p : Position) (mover : Direction) : Position :=
  match mover with
  | .right => ⟨p.x + 1, p.y⟩
  | .up => ⟨p.x, p.y - 1⟩
  | .left => ⟨p.x - 1, p.y⟩
  | .down => ⟨p.x, p.y + 1⟩
  | .nowhere => p

/-- `BaseEntity::move_entity`: one unit step, `Nowhere` is a no-op. -/
def move_entity (p : Position) (mover : Direction) : Position :=
  get_possible_position p mover

/-- `BaseEntity::check_wrap`: horizontal tunnel teleport. -/
def check_wrap (p : Position) : Position :=
  let p := if p.x > WINDOW_WIDTH + BLOCK_SIZE_24 then ⟨-BLOCK_SIZE_24, p.y⟩ else p
  if p.x < -BLOCK_SIZE_24 then ⟨WINDOW_WIDTH + BLOCK_SIZE_24, p.y⟩ else p

/-- `BaseEntity::is_colliding`: open axis-aligned box of half-width one cell. -/
def is_colliding (self other : Position) : Bool :=
  other.x > self.x - BLOCK_SIZE_24 && other.x < self.x + BLOCK_SIZE_24 &&
    other.y > self.y - BLOCK_SIZE_24 && other.y < self.y + BLOCK_SIZE_24

/-- `⌊v / 24⌋`: the floor of the fractional cell coordinate of pixel
coordinate `v` (`Int.fdiv` is floor division). -/
def cellFloor (v : Int) : Int := Int.fdiv v BLOCK_SIZE_24

/-- `⌈v / 24⌉`: the ceiling of the fractional cell coordinate of pixel
coordinate `v`. -/
def cellCeil (v : Int) : Int := -Int.fdiv (-v) BLOCK_SIZE_24

/-- `BaseEntity::char_board_pos`: the four floor/ceil corner combinations of a
fractional cell coordinate.  The source receives the fractional coordinate
`v as f32 / 24.0`; on the `i16` pixel range floor and ceiling of that `f32`
quotient coincide with the exact `⌊v / 24⌋` and `⌈v / 24⌉` (see the header),
so the embedding takes the pixel coordinate and uses exact floor division. -/
def char_board_pos (side_dir : Nat) (x y : Int) : Position :=
  match side_dir with
  | 0 => ⟨cellFloor x, cellFloor y⟩
  | 1 => ⟨cellCeil x, cellFloor y⟩
  | 2 => ⟨cellFloor x, cellCeil y⟩
  | 3 => ⟨cellCeil x, cellCeil y⟩
  | _ => ⟨cellFloor x, cellFloor y⟩

/-- The bounds-checked cell lookup performed for one probed corner inside
`BaseEntity::wall_collision`: `board_x = |x| % BOARD_WIDTH` (an `i16` `%` on a
non-negative value), `board_y = y as usize` (negative `y` wraps to a huge
`usize` and fails the `board_y < BOARD_HEIGHT` test, hence the `0 ≤ p.y`
condition), and the final `index < actual_map.len()` test is `List.get?`. -/
def probedBlock (map : GameMap) (p : Position) : Option BlockType :=
  let board_x : Nat := p.x.natAbs % BOARD_WIDTH
  if 0 ≤ p.y ∧ p.y.toNat < BOARD_HEIGHT ∧ board_x < BOARD_WIDTH then
    List.get? map (BOARD_WIDTH * p.y.toNat + board_x)
  else
    none

/-- The early-`return true` condition of the probe loop body in
`BaseEntity::wall_collision`: the probed cell is a `Wall`, or a `Door` while
doors may not be used.  Cells that fail the bounds checks are skipped. -/
def cornerBad (map : GameMap) (can_use_door : Bool) (p : Position) : Bool :=
  match probedBlock map p with
  | some .wall => true
  | some .door => !can_use_door
  | _ => false

/-- `BaseEntity::wall_collision`: probe the four corner cells around the
fractional cell coordinate of the pixel position; true iff some probe hits. -/
def wall_collision (x y : Int) (map : GameMap) (can_use_door : Bool) : Bool :=
  ((List.range 4).map fun side_dir => char_board_pos side_dir x y).any
    (cornerBad map can_use_door)

theorem cornerBad_eq_true (map : GameMap) (d : Bool) (p : Position) :
    cornerBad map d p = true ↔
      probedBlock map p = some BlockType.wall ∨
        (probedBlock map p = some BlockType.door ∧ d = false) := by
  unfold cornerBad
  rcases h : probedBlock map p with _ | b
  · simp
  · cases b <;> simp [Bool.not_eq_true']

theorem cornerBad_eq_false_of_food (map : GameMap) (d : Bool) (p : Position)
    (h : probedBlock map p = some BlockType.pellet ∨
      probedBlock map p = some BlockType.energizer ∨
      probedBlock map p = some BlockType.nothing) :
    cornerBad map d p = false := by
  unfold cornerBad
  rcases h with h | h | h <;> rw [h]

end PacmanRust

namespace PacmanRust

/-- C6: for every pixel position, maze grid and `can_use_door` flag,
`wall_collision` returns true iff at least one of the four probed corner
cells (floor/floor, ceil/floor, floor/ceil, ceil/ceil of the fractional
cell coordinate) is a Wall, or a Door while `can_use_door` is false; and
it returns false when all four probed cells are Pellet, Energizer or
Empty. -/
theorem wall_collision_four_corner_spec (x y : Int) (map : GameMap) (d : Bool) :
    (wall_collision x y map d = true ↔
      ∃ s, s < 4 ∧
        (probedBlock map (char_board_pos s x y) = some BlockType.wall ∨
          (probedBlock map (char_board_pos s x y) = some BlockType.door ∧
            d = false))) ∧
    ((∀ s, s < 4 →
        probedBlock map (char_board_pos s x y) = some BlockType.pellet ∨
        probedBlock map (char_board_pos s x y) = some BlockType.energizer ∨
        probedBlock map (char_board_pos s x y) = some BlockType.nothing) →
      wall_collision x y map d = false) := by
  constructor
  · rw [wall_collision, List.any_eq_true]
    constructor
    · rintro ⟨p, hp, hbad⟩
      rcases List.mem_map.mp hp with ⟨s, hs, rfl⟩
      exact ⟨s, List.mem_range.mp hs, (cornerBad_eq_true map d _).mp hbad⟩
    · rintro ⟨s, hs, hgood⟩
      exact ⟨char_board_pos s x y,
        List.mem_map.mpr ⟨s, List.mem_range.mpr hs, rfl⟩,
        (cornerBad_eq_true map d _).mpr hgood⟩
  · intro hall
    rw [wall_collision, List.any_eq_false]
    intro p hp
    rcases List.mem_map.mp hp with ⟨s, hs, rfl⟩
    simp only [Bool.not_eq_true]
    exact cornerBad_eq_false_of_food map d _ (by
      rcases hall s (List.mem_range.mp hs) with h | h | h
      · exact Or.inl h
      · exact Or.inr (Or.inl h)
      · exact Or.inr (Or.inr h))

/-- Witness for `wall_collision_four_corner_spec`: at pixel position `(0, 0)`
on a one-cell grid holding a pellet, all four probes hit that pellet cell and
`wall_collision` evaluates to false. -/
theorem wall_collision_four_corner_spec_witness :
    wall_collision 0 0 [BlockType.pellet] false = false :=
  (wall_collision_four_corner_spec 0 0 [BlockType.pellet] false).2
    (by decide)

end PacmanRust

/-! ## Player food pickup (`src/entity/pacman.rs`) and the collision
system's food wrapper (`src/game/collision.rs`) -/

namespace PacmanRust

/-- The probe loop of `Pacman::food_collision`, one iteration per
`side_dir`.  Unlike `wall_collision` the column is `get_x() as usize`
without `abs`/`%` (negative coordinates wrap to huge `usize` values and
fail the bounds test), the first Pellet/Energizer found is cleared to
Empty and its code returned: `0` = pellet eaten, `1` = energizer eaten,
and `2` = no food once all four probes miss. -/
def food_collision_go (x y : Int) (map : GameMap) : List Nat → Nat × GameMap
  | [] => (2, map)
  | side_dir :: rest =>
    let bp := char_board_pos side_dir x y
    if 0 ≤ bp.y ∧ bp.y.toNat < BOARD_HEIGHT ∧ 0 ≤ bp.x ∧ bp.x.toNat < BOARD_WIDTH then
      let index := BOARD_WIDTH * bp.y.toNat + bp.x.toNat
      match List.get? map index with
      | some BlockType.pellet => (0, List.set map index BlockType.nothing)
      | some BlockType.energizer => (1, List.set map index BlockType.nothing)
      | _ => food_collision_go x y map rest
    else
      food_collision_go x y map rest

/-- `Pacman::food_collision`: four-corner probe around the player's pixel
position, in the fixed order floor/floor, ceil/floor, floor/ceil, ceil/ceil. -/
def food_collision (pos : Position) (map : GameMap) : Nat × GameMap :=
  food_collision_go pos.x pos.y map [0, 1, 2, 3]

/-- `FoodCollisionEvent` from `src/game/collision.rs`. -/
inductive FoodCollisionEvent
  | nothing
  | pellet
  | energizer
  deriving DecidableEq, Repr

/-- `CollisionSystem::check_food_collision`: wraps `Pacman::food_collision`
and translates its numeric code into a `FoodCollisionEvent`, mapping
`0 => Nothing`, `1 => Energizer` and everything else to `Pellet`. -/
def check_food_collision (pos : Position) (map : GameMap) :
    FoodCollisionEvent × GameMap :=
  let r := food_collision pos map
  (match r.1 with
    | 0 => FoodCollisionEvent.nothing
    | 1 => FoodCollisionEvent.energizer
    | _ => FoodCollisionEvent.pellet,
   r.2)

theorem lt_length_of_get?_eq_some {α : Type} {l : List α} {i : Nat} {a : α}
    (h : List.get? l i = some a) : i < l.length := by
  by_contra hc
  rw [List.get?_eq_none.mpr (Nat.le_of_not_lt hc)] at h
  cases h

theorem food_collision_go_monotone (x y : Int) (dirs : List Nat)
    (map : GameMap) (i : Nat) :
    List.get? (food_collision_go x y map dirs).2 i = List.get? map i ∨
      ((List.get? map i = some BlockType.pellet ∨
          List.get? map i = some BlockType.energizer) ∧
        List.get? (food_collision_go x y map dirs).2 i =
          some BlockType.nothing) := by
  induction dirs with
  | nil => exact Or.inl rfl
  | cons side_dir rest ih =>
    rw [food_collision_go]
    split
    · dsimp only
      split
      · next heq =>
        by_cases hi : BOARD_WIDTH * (char_board_pos side_dir x y).y.toNat +
            (char_board_pos side_dir x y).x.toNat = i
        · subst hi
          refine Or.inr ⟨Or.inl heq, ?_⟩
          have hlt : BOARD_WIDTH * (char_board_pos side_dir x y).y.toNat +
              (char_board_pos side_dir x y).x.toNat < map.length :=
            lt_length_of_get?_eq_some heq
          simp [List.get?_eq_getElem?, List.getElem?_set_eq_of_lt _ hlt]
        · refine Or.inl ?_
          simp [List.get?_eq_getElem?, List.getElem?_set_ne hi]
      · next heq =>
        by_cases hi : BOARD_WIDTH * (char_board_pos side_dir x y).y.toNat +
            (char_board_pos side_dir x y).x.toNat = i
        · subst hi
          refine Or.inr ⟨Or.inr heq, ?_⟩
          have hlt : BOARD_WIDTH * (char_board_pos side_dir x y).y.toNat +
              (char_board_pos side_dir x y).x.toNat < map.length :=
            lt_length_of_get?_eq_some heq
          simp [List.get?_eq_getElem?, List.getElem?_set_eq_of_lt _ hlt]
        · refine Or.inl ?_
          simp [List.get?_eq_getElem?, List.getElem?_set_ne hi]
      · exact ih
    · exact ih

/-- C8: within a life, the only per-tick mutation of the session grid is
`Pacman::food_collision` (invoked from `Game::food_collision` inside
`Game::update_game_logic`; every other subsystem borrows the grid
immutably), and for every cell it either leaves the cell unchanged or
turns a Pellet/Energizer cell into Empty — in particular nothing ever
becomes a Pellet or Energizer, and Wall/Door cells are never changed. -/
theorem food_collision_grid_monotone (pos : Position) (map : GameMap) (i : Nat) :
    List.get? (food_collision pos map).2 i = List.get? map i ∨
      ((List.get? map i = some BlockType.pellet ∨
          List.get? map i = some BlockType.energizer) ∧
        List.get? (food_collision pos map).2 i = some BlockType.nothing) :=
  food_collision_go_monotone pos.x pos.y [0, 1, 2, 3] map i

end PacmanRust

namespace PacmanRust

/-- A 30-cell grid whose cell `(col 1, row 1)` (index `28 * 1 + 1 = 29`)
holds a Pellet; every other cell is empty. -/
def pelletAt29Map : GameMap :=
  (List.replicate 30 BlockType.nothing).set 29 BlockType.pellet

/-- An all-empty 30-cell grid. -/
def emptyMap : GameMap := List.replicate 30 BlockType.nothing

/-- C10: `CollisionSystem::check_food_collision` disagrees with
`Pacman::food_collision` on two of the three outcomes.  With the player
centred on cell `(1,1)`: when that cell holds a pellet, `food_collision`
returns code `0` (labelled `// Pellet eaten` in the source) yet the wrapper
reports `FoodCollisionEvent::Nothing`; when no food is present,
`food_collision` returns code `2` (labelled `// No food eaten`) yet the
wrapper reports `FoodCollisionEvent::Pellet`.  Only the Energizer case
agrees. -/
theorem check_food_collision_swapped_mapping :
    (food_collision ⟨24, 24⟩ pelletAt29Map).1 = 0 ∧
      (check_food_collision ⟨24, 24⟩ pelletAt29Map).1 =
        FoodCollisionEvent.nothing ∧
      (food_collision ⟨24, 24⟩ emptyMap).1 = 2 ∧
      (check_food_collision ⟨24, 24⟩ emptyMap).1 = FoodCollisionEvent.pellet := by
  decide

end PacmanRust

/-! ## Timers (`src/game_state.rs`).  `std::time::Instant` is replaced by an
explicit wall-clock parameter `now` in milliseconds; `Instant::elapsed()` at
time `now` for an instant recorded at time `t` is `now - t`. -/

namespace PacmanRust

/-- `GameTimer` from `src/game_state.rs`. -/
structure GameTimer where
  start_time : Option Nat
  is_paused : Bool
  pause_time : Option Nat
  accumulated_time : Nat
  deriving DecidableEq, Repr

/-- `GameTimer::new`. -/
def GameTimer.new : GameTimer :=
  { start_time := none, is_paused := false, pause_time := none,
    accumulated_time := 0 }

/-- `GameTimer::start`. -/
def GameTimer.start (t : GameTimer) (now : Nat) : GameTimer :=
  { t with start_time := some now, is_paused := false, pause_time := none }

/-- `GameTimer::restart`. -/
def GameTimer.restart (t : GameTimer) (now : Nat) : GameTimer :=
  { t with
      start_time := some now
      accumulated_time := 0
      is_paused := false
      pause_time := none }

/-- `GameTimer::pause`. -/
def GameTimer.pause (t : GameTimer) (now : Nat) : GameTimer :=
  if !t.is_paused ∧ t.start_time.isSome then
    { t with pause_time := some now, is_paused := true }
  else
    t

/-- `GameTimer::unpause`: note that the source adds `pause_time.elapsed()` —
the length of the pause itself — to `accumulated_time`, and then rebases
`start_time` to the current instant. -/
def GameTimer.unpause (t : GameTimer) (now : Nat) : GameTimer :=
  if t.is_paused then
    let acc :=
      match t.pause_time with
      | some q => t.accumulated_time + (now - q)
      | none => t.accumulated_time
    { t with
        accumulated_time := acc
        is_paused := false
        pause_time := none
        start_time := some now }
  else
    t

/-- `GameTimer::get_ticks`. -/
def GameTimer.get_ticks (t : GameTimer) (now : Nat) : Nat :=
  match t.start_time with
  | some s =>
    if t.is_paused then
      match t.pause_time with
      | some q => t.accumulated_time + (now - s) - (now - q)
      | none => t.accumulated_time + (now - s)
    else
      t.accumulated_time + (now - s)
  | none => 0

/-- C9: a timer started at `t = 0` and paused at `t = 100` reports the frozen
value `100` for the whole pause, but after `unpause` at `t = 500` it reports
`400` — the `unpause` slip adds the 400 ms pause interval to
`accumulated_time` and discards the 100 ms that had elapsed before the
pause, so the reported elapsed time does not resume from the frozen value
(it jumps from 100 to 400). -/
theorem game_timer_unpause_drops_elapsed :
    ((GameTimer.new.start 0).pause 100).get_ticks 150 = 100 ∧
      ((GameTimer.new.start 0).pause 100).get_ticks 300 = 100 ∧
      ((GameTimer.new.start 0).pause 100).get_ticks 500 = 100 ∧
      (((GameTimer.new.start 0).pause 100).unpause 500).get_ticks 500 = 400 ∧
      (((GameTimer.new.start 0).pause 100).unpause 500).get_ticks 600 = 500 := by
  decide

end PacmanRust

/-! ## Scoring system (`src/game/scoring.rs`) -/

namespace PacmanRust

/-- `LittleScore` from `src/game/scoring.rs`. -/
structure LittleScore where
  position : Position
  value : Nat
  timer : GameTimer
  deriving DecidableEq, Repr

/-- `LittleScore::new`: records the position and value and starts a fresh
timer. -/
def LittleScore.new (now : Nat) (position : Position) (value : Nat) :
    LittleScore :=
  { position := position, value := value, timer := GameTimer.new.start now }

/-- `LittleScore::is_expired`. -/
def LittleScore.is_expired (sc : LittleScore) (now : Nat)
    (target_time : Nat) : Bool :=
  sc.timer.get_ticks now ≥ target_time

/-- `ScoringSystem` from `src/game/scoring.rs`.  `ghost_score_multiplier`
is a `u16` and `dead_ghosts_counter` a `u8` in the source; arithmetic on
them below carries the corresponding explicit modulus. -/
structure ScoringSystem where
  ghost_score_multiplier : Nat
  dead_ghosts_counter : Nat
  little_scores : List LittleScore
  little_timer_target : Nat
  deriving DecidableEq, Repr

/-- `ScoringSystem::new`: the first ghost is worth 200. -/
def ScoringSystem.new : ScoringSystem :=
  { ghost_score_multiplier := 200
    dead_ghosts_counter := 0
    little_scores := []
    little_timer_target := 1000 }

/-- `ScoringSystem::add_ghost_score`: returns the score awarded for this
kill (the current multiplier), records a floating score, doubles the
multiplier (`u16`) and bumps the dead-ghost counter (`u8`). -/
def ScoringSystem.add_ghost_score (s : ScoringSystem) (now : Nat)
    (position : Position) : Nat × ScoringSystem :=
  let score_value := s.ghost_score_multiplier
  (score_value,
    { s with
        little_scores := s.little_scores ++ [LittleScore.new now position score_value]
        ghost_score_multiplier := s.ghost_score_multiplier * 2 % 2 ^ 16
        dead_ghosts_counter := (s.dead_ghosts_counter + 1) % 2 ^ 8 })

/-- `ScoringSystem::reset_for_energizer`. -/
def ScoringSystem.reset_for_energizer (s : ScoringSystem) : ScoringSystem :=
  { s with ghost_score_multiplier := 200 }

/-- `ScoringSystem::reset_ghost_counter` ("Reset when pacman is not
energized"): resets only the dead-ghost counter. -/
def ScoringSystem.reset_ghost_counter (s : ScoringSystem) : ScoringSystem :=
  { s with dead_ghosts_counter := 0 }

/-- `ScoringSystem::update_little_scores`: drop expired floating scores. -/
def ScoringSystem.update_little_scores (s : ScoringSystem) (now : Nat) :
    ScoringSystem :=
  { s with
      little_scores :=
        s.little_scores.filter fun sc => !sc.is_expired now s.little_timer_target }

/-- The scoring-system side of `Game::entity_collisions`
(`src/game/core.rs:408-413`): on every tick on which the player is not
energized — in particular the tick on which a power window ends — only
`reset_ghost_counter` is invoked; nothing touches the multiplier. -/
def entity_collisions_scoring (pacman_energized : Bool) (s : ScoringSystem) :
    ScoringSystem :=
  if !pacman_energized then s.reset_ghost_counter else s

/-- The multiplier state after `n` further kills. -/
def multiplierAfterKills (s : ScoringSystem) : Nat → ScoringSystem
  | 0 => s
  | n + 1 => ((multiplierAfterKills s n).add_ghost_score 0 ⟨0, 0⟩).2

theorem multiplierAfterKills_closed_form (s : ScoringSystem) (n : Nat) :
    (multiplierAfterKills s.reset_for_energizer n).ghost_score_multiplier =
      200 * 2 ^ n % 2 ^ 16 := by
  induction n with
  | zero => simp [multiplierAfterKills, ScoringSystem.reset_for_energizer]
  | succ n ih =>
    rw [multiplierAfterKills, ScoringSystem.add_ghost_score]
    simp only [ih]
    rw [Nat.mod_mul_mod, pow_succ, Nat.mul_assoc]
    ring_nf

end PacmanRust

namespace PacmanRust

/-- C1 counterexample: the claim says the multiplier "is reset to exactly 200
… when the power window ends".  After one kill the multiplier is 400; the
only scoring operation performed on a non-energized tick (the moment the
power window has ended) is `Game::entity_collisions`'s call to
`reset_ghost_counter`, and afterwards the multiplier is still 400, not
200. -/
theorem kill_multiplier_not_reset_at_power_end :
    (entity_collisions_scoring false
        (ScoringSystem.new.add_ghost_score 0 ⟨0, 0⟩).2).ghost_score_multiplier
      = 400 ∧
      ¬(entity_collisions_scoring false
          (ScoringSystem.new.add_ghost_score 0 ⟨0, 0⟩).2).ghost_score_multiplier
        = 200 := by
  decide

/-- C1 (amended): the multiplier starts at 200; `add_ghost_score` awards the
current multiplier and doubles it (as a `u16`); `reset_for_energizer` — run
exactly when an Energizer is eaten — resets it to 200; the operation run
when the power window ends (`reset_ghost_counter`, via
`Game::entity_collisions`) and the floating-score pruning leave it
unchanged; consequently the values awarded within one unbroken power window
that begins with an Energizer are exactly 200, 400, 800, 1600, …
(`200 * 2 ^ n` for the `n`-th kill, exact for `n ≤ 8`; beyond that the
`u16` doubling wraps). -/
theorem kill_multiplier_spec :
    ScoringSystem.new.ghost_score_multiplier = 200 ∧
      (∀ (s : ScoringSystem) (now : Nat) (pos : Position),
        (s.add_ghost_score now pos).1 = s.ghost_score_multiplier ∧
          (s.add_ghost_score now pos).2.ghost_score_multiplier =
            s.ghost_score_multiplier * 2 % 2 ^ 16) ∧
      (∀ s : ScoringSystem,
        s.reset_for_energizer.ghost_score_multiplier = 200) ∧
      (∀ s : ScoringSystem,
        s.reset_ghost_counter.ghost_score_multiplier =
          s.ghost_score_multiplier) ∧
      (∀ (s : ScoringSystem) (e : Bool),
        (entity_collisions_scoring e s).ghost_score_multiplier =
          s.ghost_score_multiplier) ∧
      (∀ (s : ScoringSystem) (now : Nat),
        (s.update_little_scores now).ghost_score_multiplier =
          s.ghost_score_multiplier) ∧
      (∀ (s : ScoringSystem) (n : Nat), n ≤ 8 →
        (multiplierAfterKills s.reset_for_energizer n).ghost_score_multiplier =
          200 * 2 ^ n) := by
  refine ⟨rfl, fun s now pos => ⟨rfl, rfl⟩, fun s => rfl, fun s => rfl,
    ?_, fun s now => rfl, ?_⟩
  · intro s e
    unfold entity_collisions_scoring
    split <;> rfl
  · intro s n hn
    rw [multiplierAfterKills_closed_form]
    have h2 : 2 ^ n ≤ 2 ^ 8 := Nat.pow_le_pow_right (by norm_num) hn
    have : 200 * 2 ^ n < 2 ^ 16 := by
      calc 200 * 2 ^ n ≤ 200 * 2 ^ 8 := Nat.mul_le_mul_left _ h2
        _ < 2 ^ 16 := by norm_num
    exact Nat.mod_eq_of_lt this

/-- Witness for `kill_multiplier_spec`: the fourth kill of a power window is
worth exactly `200 * 2 ^ 3 = 1600`. -/
theorem kill_multiplier_spec_witness :
    (multiplierAfterKills ScoringSystem.new.reset_for_energizer 3).ghost_score_multiplier
      = 200 * 2 ^ 3 :=
  kill_multiplier_spec.2.2.2.2.2.2 ScoringSystem.new 3 (by decide)

end PacmanRust

/-! ## Ghost shared state (`src/entity/ghost_trait.rs`) -/

namespace PacmanRust

/-- The state of `BaseEntity` from `src/entity/base_entity.rs` (textures and
sprite bookkeeping are rendering-only and omitted). -/
structure BaseEntityState where
  position : Position
  speed : Nat
  direction : Direction
  facing : Nat
  life_statement : Bool
  deriving DecidableEq, Repr

/-- The state of `Ghost` from `src/entity/ghost_trait.rs` (textures, sprite
clips, colors and animation frames are rendering-only and omitted).
`status`: false = chase, true = scatter. -/
structure GhostState where
  entity : BaseEntityState
  can_use_door : Bool
  status : Bool
  target : Position
  scatter_target : Position
  door_target : Position
  home : Position
  deriving DecidableEq, Repr

/-- `Ghost::is_home`: strict home bounding rectangle
`11*24 < x < 17*24`, `15*24 < y < 18*24`. -/
def GhostState.is_home (g : GhostState) : Bool :=
  11 * BLOCK_SIZE_24 < g.entity.position.x &&
    g.entity.position.x < 17 * BLOCK_SIZE_24 &&
    (15 * BLOCK_SIZE_24 < g.entity.position.y &&
      g.entity.position.y < 18 * BLOCK_SIZE_24)

/-- `Ghost::should_calculate_normal_target`: priority-ordered per-tick
mode logic.  Returns the `bool` result of the source function together
with the mutated ghost state. -/
def GhostState.should_calculate_normal_target (g : GhostState)
    (pacman_energized : Bool) : Bool × GhostState :=
  if !g.entity.life_statement then
    let g1 := { g with can_use_door := true, target := g.home }
    if g1.entity.position.x = g1.home.x ∧ g1.entity.position.y = g1.home.y then
      (false, { g1 with entity := { g1.entity with life_statement := true } })
    else
      (false, g1)
  else if g.is_home ∧ pacman_energized then
    if g.entity.position.x = g.home.x ∧ g.entity.position.y = g.home.y then
      (false, { g with target := ⟨g.target.x, g.home.y - BLOCK_SIZE_24⟩ })
    else if g.entity.position.x = g.home.x ∧
        g.entity.position.y = g.home.y - BLOCK_SIZE_24 then
      (false, { g with target := ⟨g.target.x, g.home.y⟩ })
    else
      (false, g)
  else if g.is_home ∧ g.entity.life_statement then
    (false, { g with can_use_door := true, target := g.door_target })
  else
    match g.status with
    | false => (true, { g with can_use_door := false })
    | true => (false, { g with can_use_door := false, target := g.scatter_target })

/-- A dead ghost one unit to the right of Blinky's home cell
`(13*24+12, 17*24+12) = (324, 420)`. -/
def deadGhostNearHome : GhostState :=
  { entity :=
      { position := ⟨325, 420⟩, speed := 6, direction := .left, facing := 2,
        life_statement := false }
    can_use_door := true
    status := false
    target := ⟨324, 420⟩
    scatter_target := ⟨612, 12⟩
    door_target := ⟨336, 360⟩
    home := ⟨324, 420⟩ }

/-- The same ghost exactly at its home cell. -/
def deadGhostAtHome : GhostState :=
  { deadGhostNearHome with
      entity := { deadGhostNearHome.entity with position := ⟨324, 420⟩ } }

/-- C3 counterexample: a dead ghost at distance 1 (≤ 2 units) from home is,
according to the claim, resurrected with its position snapped to home; the
code resurrects only on exact position equality, so here the ghost stays
dead and its position is untouched. -/
theorem dead_ghost_tolerance_counterexample :
    (deadGhostNearHome.entity.position.x - deadGhostNearHome.home.x) ^ 2 +
        (deadGhostNearHome.entity.position.y - deadGhostNearHome.home.y) ^ 2 ≤
        2 ^ 2 ∧
      (deadGhostNearHome.should_calculate_normal_target
          false).2.entity.life_statement = false ∧
      (deadGhostNearHome.should_calculate_normal_target
          false).2.entity.position = ⟨325, 420⟩ := by
  decide

/-- C3 (amended): for every dead adversary the per-tick mode logic forces the
target to the home cell, permits door crossing, skips normal target
calculation, leaves the position untouched, and resurrects the adversary
exactly when its position equals the home cell exactly (no ≤2-unit
tolerance and no snapping — none is needed, since resurrection happens only
on exact coincidence). -/
theorem dead_ghost_update_spec (g : GhostState) (e : Bool)
    (h : g.entity.life_statement = false) :
    (g.should_calculate_normal_target e).1 = false ∧
      (g.should_calculate_normal_target e).2.can_use_door = true ∧
      (g.should_calculate_normal_target e).2.target = g.home ∧
      (g.should_calculate_normal_target e).2.entity.position =
        g.entity.position ∧
      ((g.should_calculate_normal_target e).2.entity.life_statement = true ↔
        g.entity.position = g.home) := by
  unfold GhostState.should_calculate_normal_target
  rw [h]
  simp only [Bool.not_false, if_pos rfl]
  by_cases hp : g.entity.position.x = g.home.x ∧ g.entity.position.y = g.home.y
  · rw [if_pos hp]
    refine ⟨rfl, rfl, rfl, rfl, ?_⟩
    constructor
    · intro _
      obtain ⟨hx, hy⟩ := hp
      calc g.entity.position = ⟨g.entity.position.x, g.entity.position.y⟩ := rfl
        _ = ⟨g.home.x, g.home.y⟩ := by rw [hx, hy]
        _ = g.home := rfl
    · intro _
      rfl
  · rw [if_neg hp]
    refine ⟨rfl, rfl, rfl, rfl, ?_⟩
    constructor
    · intro hcontra
      exact absurd hcontra (by simp [h])
    · intro hpos
      exact absurd ⟨congrArg Position.x hpos, congrArg Position.y hpos⟩ hp

/-- Witness for `dead_ghost_update_spec`: the dead ghost exactly at home is
resurrected, with target home and door crossing permitted. -/
theorem dead_ghost_update_spec_witness :
    (deadGhostAtHome.should_calculate_normal_target false).1 = false ∧
      (deadGhostAtHome.should_calculate_normal_target false).2.can_use_door =
        true ∧
      (deadGhostAtHome.should_calculate_normal_target
          false).2.entity.life_statement = true := by
  obtain ⟨h1, h2, _, _, h5⟩ := dead_ghost_update_spec deadGhostAtHome false rfl
  exact ⟨h1, h2, h5.mpr rfl⟩

end PacmanRust

/-! ## Inky's pincer targeting (`src/entity/inky.rs`) -/

namespace PacmanRust

/-- `Inky::calculate_target` (`src/entity/inky.rs:54-88`): the new chase
target as a function of the player's position and heading and the optional
snapshot of Blinky's position. -/
def inky_calculate_target (pacman_pos : Position) (pacman_dir : Direction)
    (blinky_pos : Option Position) : Position :=
  match blinky_pos with
  | some blinky_position =>
    let offset : Int := BLOCK_SIZE_24 * 2
    let intermediate_pos : Position :=
      match pacman_dir with
      | .up => ⟨pacman_pos.x - offset, pacman_pos.y - offset⟩
      | .down => ⟨pacman_pos.x, pacman_pos.y + offset⟩
      | .left => ⟨pacman_pos.x - offset, pacman_pos.y⟩
      | .right => ⟨pacman_pos.x + offset, pacman_pos.y⟩
      | .nowhere => pacman_pos
    ⟨intermediate_pos.x + (intermediate_pos.x - blinky_position.x),
      intermediate_pos.y + (intermediate_pos.y - blinky_position.y)⟩
  | none => pacman_pos

/-- Modelled from the spec's words for C5 (refinement reference): the
intermediate point exactly 2 cells ahead of the player along the player's
current heading, the player's position itself for heading None. -/
def inky_intermediate_claimed (pacman_pos : Position)
    (pacman_dir : Direction) : Position :=
  match pacman_dir with
  | .up => ⟨pacman_pos.x, pacman_pos.y - 2 * BLOCK_SIZE_24⟩
  | .down => ⟨pacman_pos.x, pacman_pos.y + 2 * BLOCK_SIZE_24⟩
  | .left => ⟨pacman_pos.x - 2 * BLOCK_SIZE_24, pacman_pos.y⟩
  | .right => ⟨pacman_pos.x + 2 * BLOCK_SIZE_24, pacman_pos.y⟩
  | .nowhere => pacman_pos

/-- The intermediate point the code actually computes: 2 cells ahead along
the heading, except that for heading Up it is 2 cells up AND 2 cells left
(the classic arcade up-targeting quirk). -/
def inky_intermediate_actual (pacman_pos : Position)
    (pacman_dir : Direction) : Position :=
  match pacman_dir with
  | .up => ⟨pacman_pos.x - 2 * BLOCK_SIZE_24, pacman_pos.y - 2 * BLOCK_SIZE_24⟩
  | .down => ⟨pacman_pos.x, pacman_pos.y + 2 * BLOCK_SIZE_24⟩
  | .left => ⟨pacman_pos.x - 2 * BLOCK_SIZE_24, pacman_pos.y⟩
  | .right => ⟨pacman_pos.x + 2 * BLOCK_SIZE_24, pacman_pos.y⟩
  | .nowhere => pacman_pos

/-- C5 counterexample: player at `(100, 100)` heading Up, Blinky at `(0, 0)`.
The claim's intermediate point is `(100, 52)` giving target `(200, 104)`;
the code computes intermediate `(52, 52)` and target `(104, 104)`. -/
theorem inky_up_heading_counterexample :
    inky_calculate_target ⟨100, 100⟩ .up (some ⟨0, 0⟩) = ⟨104, 104⟩ ∧
      (⟨(inky_intermediate_claimed ⟨100, 100⟩ .up).x +
          ((inky_intermediate_claimed ⟨100, 100⟩ .up).x - 0),
        (inky_intermediate_claimed ⟨100, 100⟩ .up).y +
          ((inky_intermediate_claimed ⟨100, 100⟩ .up).y - 0)⟩ : Position) =
        ⟨200, 104⟩ ∧
      inky_calculate_target ⟨100, 100⟩ .up (some ⟨0, 0⟩) ≠ ⟨200, 104⟩ := by
  decide

/-- C5 (amended): for every player position, player heading and lead-ghost
(Blinky) position, Inky's chase target is the point reflection through
Blinky's position of the intermediate point 2 cells ahead of the player
along the player's heading — except that for heading Up the intermediate
point is 2 cells up and 2 cells to the left, and for heading None it is the
player's position (`intermediate + (intermediate - blinky)`). -/
theorem inky_target_point_reflection (pacman_pos : Position)
    (pacman_dir : Direction) (blinky_position : Position) :
    inky_calculate_target pacman_pos pacman_dir (some blinky_position) =
      ⟨(inky_intermediate_actual pacman_pos pacman_dir).x +
          ((inky_intermediate_actual pacman_pos pacman_dir).x -
            blinky_position.x),
        (inky_intermediate_actual pacman_pos pacman_dir).y +
          ((inky_intermediate_actual pacman_pos pacman_dir).y -
            blinky_position.y)⟩ := by
  cases pacman_dir <;> rfl

end PacmanRust

/-! ## Collision system (`src/game/collision.rs`) and the death handling of
`Game::check_ghost_collisions` (`src/game/core.rs`) -/

namespace PacmanRust

/-- `GhostType` from `src/game/collision.rs`. -/
inductive GhostKind
  | blinky
  | inky
  | pinky
  | clyde
  deriving DecidableEq, Repr

/-- `CollisionEvent` from `src/game/collision.rs`. -/
inductive CollisionEvent
  | pacmanEatsGhost (ghost_type : GhostKind) (position : Position)
  | ghostKillsPacman (ghost_type : GhostKind)
  | noCollision
  deriving DecidableEq, Repr

/-- The position/aliveness view of one ghost used by the collision system. -/
structure GhostView where
  position : Position
  alive : Bool
  deriving DecidableEq, Repr

/-- `CollisionSystem::check_pacman_ghost_collision`: an event iff the
player's bounding box overlaps the ghost and the ghost is alive; eats when
energized, kills otherwise. -/
def check_pacman_ghost_collision (pacman_pos : Position) (ghost : GhostView)
    (ghost_type : GhostKind) (pacman_is_energized : Bool) : CollisionEvent :=
  if is_colliding pacman_pos ghost.position && ghost.alive then
    if pacman_is_energized then
      .pacmanEatsGhost ghost_type pacman_pos
    else
      .ghostKillsPacman ghost_type
  else
    .noCollision

/-- `CollisionSystem::check_all_ghost_collisions`: checks the four ghosts in
the fixed order Blinky, Inky, Pinky, Clyde and collects every event that is
not `NoCollision`. -/
def check_all_ghost_collisions (pacman_pos : Position)
    (blinky inky pinky clyde : GhostView) (pacman_is_energized : Bool) :
    List CollisionEvent :=
  ([check_pacman_ghost_collision pacman_pos blinky .blinky pacman_is_energized,
    check_pacman_ghost_collision pacman_pos inky .inky pacman_is_energized,
    check_pacman_ghost_collision pacman_pos pinky .pinky pacman_is_energized,
    check_pacman_ghost_collision pacman_pos clyde .clyde
      pacman_is_energized]).filter
    fun ev => ev != CollisionEvent.noCollision

/-- Whether an event is a player-death event. -/
def isDeathEvent : CollisionEvent → Bool
  | .ghostKillsPacman _ => true
  | _ => false

/-- The death handling of `Game::check_ghost_collisions`
(`src/game/core.rs:425-461`): the event loop `break`s at the first
`GhostKillsPacman`, so this counts how many death events get processed. -/
def processed_death_events : List CollisionEvent → Nat
  | [] => 0
  | CollisionEvent.ghostKillsPacman _ :: _ => 1
  | _ :: rest => processed_death_events rest

/-- C4 counterexample: a non-powered player overlapping two alive
adversaries at once receives two `GhostKillsPacman` events from the
collision system in a single tick, so the collision system itself does not
short-circuit at the first overlap. -/
theorem collision_system_two_death_events :
    (check_all_ghost_collisions ⟨100, 100⟩ ⟨⟨100, 100⟩, true⟩
          ⟨⟨101, 100⟩, true⟩ ⟨⟨500, 500⟩, true⟩ ⟨⟨100, 100⟩, false⟩
          false).countP isDeathEvent = 2 ∧
      ¬(check_all_ghost_collisions ⟨100, 100⟩ ⟨⟨100, 100⟩, true⟩
            ⟨⟨101, 100⟩, true⟩ ⟨⟨500, 500⟩, true⟩ ⟨⟨100, 100⟩, false⟩
            false).countP isDeathEvent ≤ 1 := by
  decide

/-- C4 (amended): when the player is not powered, the collision system
yields one player-death event per overlapping alive adversary — so at least
one death event iff the player's bounding box overlaps some alive
adversary, and none when no alive adversary overlaps.  The at-most-one
guarantee is provided by the game's event loop, which `break`s at the first
death event: it processes at most one death event per tick, and exactly one
iff some alive adversary overlaps. -/
theorem collision_death_events_spec (pp : Position)
    (b i p c : GhostView) :
    (check_all_ghost_collisions pp b i p c false).countP isDeathEvent =
        ([b, i, p, c].countP fun gh => is_colliding pp gh.position && gh.alive) ∧
      ((check_all_ghost_collisions pp b i p c false).countP isDeathEvent ≠ 0 ↔
        ∃ gh ∈ [b, i, p, c], is_colliding pp gh.position && gh.alive) ∧
      processed_death_events (check_all_ghost_collisions pp b i p c false) ≤ 1 ∧
      (processed_death_events (check_all_ghost_collisions pp b i p c false) = 1 ↔
        ∃ gh ∈ [b, i, p, c], is_colliding pp gh.position && gh.alive) := by
  cases hb : is_colliding pp b.position && b.alive <;>
    cases hi : is_colliding pp i.position && i.alive <;>
      cases hp : is_colliding pp p.position && p.alive <;>
        cases hc : is_colliding pp c.position && c.alive <;>
          simp [check_all_ghost_collisions, check_pacman_ghost_collision,
            hb, hi, hp, hc, isDeathEvent, processed_death_events, List.countP,
            List.countP.go] <;>
        simp_all [Bool.and_eq_true]

end PacmanRust

/-! ## Game state machine (`src/game_state.rs`, `src/game/core.rs`) -/

namespace PacmanRust

/-- `GameState` from `src/game_state.rs`. -/
inductive GameState
  | ready
  | playing
  | pacmanDeath
  | gameOver
  | levelComplete
  | paused
  deriving DecidableEq, Repr

/-- `Game::is_level_completed`: the session grid holds no Pellet and no
Energizer (the source loop early-returns false on the first one found). -/
def is_level_completed (map : GameMap) : Bool :=
  !(map.any fun block =>
    block == BlockType.pellet || block == BlockType.energizer)

/-- The observation of `Game` that `Game::update` consults when choosing the
next `game_state`: the current state, the round-start timer sample and
target, the player's aliveness, the session grid, the death-animation flag
and the remaining lives.  (`update_game_logic`, the position resets and the
timer restarts mutate other fields but never `game_state` itself.) -/
structure GameView where
  game_state : GameState
  game_timer_ticks : Nat
  start_ticks : Nat
  pacman_alive : Bool
  actual_map : GameMap
  dead_animation_ended : Bool
  lives : Int
  deriving DecidableEq, Repr

/-- The `game_state` after one call of `Game::update`
(`src/game/core.rs:175-264`); `start_game` fires only from Ready and flips
to Playing. -/
def next_game_state (v : GameView) : GameState :=
  match v.game_state with
  | .ready =>
    if v.game_timer_ticks ≥ v.start_ticks then .playing else .ready
  | .playing =>
    if v.pacman_alive then
      if !is_level_completed v.actual_map then .playing else .levelComplete
    else
      .pacmanDeath
  | .pacmanDeath =>
    if v.dead_animation_ended then
      if v.lives > 0 then .ready else .gameOver
    else
      .pacmanDeath
  | .levelComplete => .ready
  | .gameOver => .gameOver
  | .paused => .paused

/-- C7: the per-tick state step is a total function (`next_game_state`).
From Ready, the only transition is to Playing and it happens exactly when
the start delay has elapsed.  From Playing, exactly one of
{continue as Playing, LevelComplete, PlayerDeath} occurs, characterized
solely by whether any Pellet/Energizer remains and whether the player is
alive — and any two Playing views agreeing on those two observations step
to the same state. -/
theorem game_state_machine_spec (v w : GameView) :
    (v.game_state = .ready →
      ((next_game_state v = .playing ↔ v.start_ticks ≤ v.game_timer_ticks) ∧
        (next_game_state v = .playing ∨ next_game_state v = .ready))) ∧
      (v.game_state = .playing →
        ((next_game_state v = .playing ↔
            v.pacman_alive = true ∧ is_level_completed v.actual_map = false) ∧
          (next_game_state v = .levelComplete ↔
            v.pacman_alive = true ∧ is_level_completed v.actual_map = true) ∧
          (next_game_state v = .pacmanDeath ↔ v.pacman_alive = false) ∧
          (next_game_state v = .playing ∨ next_game_state v = .levelComplete ∨
            next_game_state v = .pacmanDeath))) ∧
      (v.game_state = .playing → w.game_state = .playing →
        v.pacman_alive = w.pacman_alive →
        is_level_completed v.actual_map = is_level_completed w.actual_map →
        next_game_state v = next_game_state w) := by
  refine ⟨?_, ?_, ?_⟩
  · intro h
    simp only [next_game_state, h]
    by_cases ht : v.start_ticks ≤ v.game_timer_ticks
    · simp [ht]
    · simp [ht]
  · intro h
    simp only [next_game_state, h]
    cases ha : v.pacman_alive <;> cases hl : is_level_completed v.actual_map <;>
      simp [ha, hl]
  · intro hv hw hA hL
    simp only [next_game_state, hv, hw, hA, hL]

/-- A Ready view whose start delay has just elapsed, over a one-pellet
grid. -/
def readyView : GameView :=
  { game_state := .ready, game_timer_ticks := 2500, start_ticks := 2500,
    pacman_alive := true, actual_map := [BlockType.pellet],
    dead_animation_ended := false, lives := 4 }

/-- The same view in the Playing state. -/
def playingView : GameView :=
  { readyView with game_state := .playing }

/-- Witness for `game_state_machine_spec`: the elapsed Ready view steps to
Playing, and the Playing view with a pellet left and the player alive
continues as Playing. -/
theorem game_state_machine_spec_witness :
    next_game_state readyView = .playing ∧
      next_game_state playingView = .playing :=
  ⟨((game_state_machine_spec readyView readyView).1 rfl).1.mpr (by decide),
    (((game_state_machine_spec playingView playingView).2.1 rfl).1).mpr
      (by decide)⟩

end PacmanRust

/-! ## Direction selection (`Ghost::calculate_direction`,
`src/entity/ghost_trait.rs:277-360`) -/

namespace PacmanRust

/-- The `match i { 0 => Right, 1 => Up, 2 => Left, 3 => Down, _ => Right }`
conversion used throughout `calculate_direction`. -/
def natToDirection (i : Nat) : Direction :=
  match i with
  | 0 => .right
  | 1 => .up
  | 2 => .left
  | 3 => .down
  | _ => .right

/-- The numeric encoding of the current heading
(`Nowhere` is encoded as 0, like `Right`). -/
def directionToNat (d : Direction) : Nat :=
  match d with
  | .right => 0
  | .up => 1
  | .left => 2
  | .down => 3
  | .nowhere => 0

/-- The 180-degree reversal as computed by the source: `(dir + 2) % 4`. -/
def opposite_heading (d : Direction) : Direction :=
  natToDirection ((directionToNat d + 2) % 4)

/-- The squared straight-line distance from a candidate position to the
target, with the horizontal component wrapped to the shorter of the direct
and tunnel-wrapped distances.  The source takes the `f32` square root of
this integer; square root is monotone, and the theorems below do not
depend on the resulting order (see the header). -/
def wrapped_dist_sq (q target : Position) : Int :=
  let dist_x := |q.x - target.x|
  let dist_x := if dist_x > WINDOW_WIDTH / 2 then WINDOW_WIDTH - dist_x else dist_x
  dist_x ^ 2 + (q.y - target.y) ^ 2

/-- The candidate loop of `calculate_direction`: for each heading index,
compute the lookahead position, drop it if `wall_collision` rejects it,
otherwise push the (distance, heading index) pair onto the two parallel
vectors (modelled as one list of pairs). -/
def candidates_go (pos target : Position) (map : GameMap)
    (can_use_door : Bool) : List Nat → List (Int × Nat)
  | [] => []
  | i :: rest =>
    let q := get_possible_position pos (natToDirection i)
    if wall_collision q.x q.y map can_use_door then
      candidates_go pos target map can_use_door rest
    else
      (wrapped_dist_sq q target, i) :: candidates_go pos target map can_use_door rest

/-- The surviving candidates of the wall filter, paired with their
distances, in loop order `0,1,2,3`. -/
def direction_candidates (g : GhostState) (map : GameMap) : List (Int × Nat) :=
  candidates_go g.entity.position g.target map g.can_use_door [0, 1, 2, 3]

/-- One conditional exchange of the double sorting loop: when entry `i`'s
distance is smaller than entry `j`'s, both parallel vectors are swapped at
`i` and `j`. -/
def exchange (l : List (Int × Nat)) (i j : Nat) : List (Int × Nat) :=
  match List.get? l i, List.get? l j with
  | some a, some b => if a.1 < b.1 then (l.set i b).set j a else l
  | _, _ => l

/-- The quadratic exchange sort of `calculate_direction`
(`for i in 0..len { for j in 0..len { if dist[i] < dist[j] { swap } } }`). -/
def exchange_sort (l : List (Int × Nat)) : List (Int × Nat) :=
  (List.range l.length).foldl
    (fun acc i => (List.range l.length).foldl (fun acc2 j => exchange acc2 i j) acc)
    l

/-- The selection scan (`ghost_trait.rs:336-359`): pick the first sorted
candidate that is not the numeric 180-degree reversal of the current
heading; if every candidate is the reversal, fall back to the nearest one;
with no candidate at all the direction is left unchanged (`keep`). -/
def scan_select (current_numeric_dir : Nat) (sorted_dirs : List Nat)
    (keep : Direction) : Direction :=
  match sorted_dirs.find? fun d => d != (current_numeric_dir + 2) % 4 with
  | some d => natToDirection d
  | none =>
    match sorted_dirs with
    | [] => keep
    | d :: _ => natToDirection d

/-- `Ghost::calculate_direction`: wall-filter the four headings; a single
survivor is taken directly; otherwise sort by distance and scan, forbidding
the 180-degree reversal. -/
def calculate_direction (g : GhostState) (map : GameMap) : Direction :=
  if (direction_candidates g map).length = 1 then
    match direction_candidates g map with
    | c :: _ => natToDirection c.2
    | [] => g.entity.direction
  else
    scan_select (directionToNat g.entity.direction)
      ((exchange_sort (direction_candidates g map)).map Prod.snd)
      g.entity.direction

end PacmanRust

namespace PacmanRust

theorem count_set_add {α : Type} [DecidableEq α] (l : List α) (i : Nat)
    (h : i < l.length) (b x : α) :
    (l.set i b).count x + (if l[i] = x then 1 else 0) =
      l.count x + (if b = x then 1 else 0) := by
  induction l generalizing i with
  | nil => simp at h
  | cons hd t ih =>
    cases i with
    | zero =>
      by_cases hb : b = x <;> by_cases hh : hd = x <;>
        simp [List.count_cons, hb, hh]
    | succ n =>
      have hn : n < t.length := by simpa using h
      have iht := ih n hn
      by_cases hh : hd = x <;>
        by_cases hb : b = x <;>
          by_cases ht : t[n] = x <;>
            simp [List.count_cons, hh, hb, ht] at iht ⊢ <;>
              omega

theorem set_swap_perm {α : Type} [DecidableEq α] (l : List α) (i j : Nat)
    (hi : i < l.length) (hj : j < l.length) :
    ((l.set i (l.get ⟨j, hj⟩)).set j (l.get ⟨i, hi⟩)).Perm l := by
  rw [List.perm_iff_count]
  intro x
  have hj2 : j < (l.set i (l.get ⟨j, hj⟩)).length := by simpa using hj
  have h2 := count_set_add (l.set i (l.get ⟨j, hj⟩)) j hj2 (l.get ⟨i, hi⟩) x
  have h1 := count_set_add l i hi (l.get ⟨j, hj⟩) x
  by_cases hij : i = j
  · subst hij
    have hss : (l.set i (l.get ⟨i, hj⟩)).set i (l.get ⟨i, hi⟩) =
        l.set i (l.get ⟨i, hi⟩) := List.set_set _ _ _ _
    rw [hss]
    have hset : (l.set i (l.get ⟨i, hi⟩)) = l := by
      apply List.ext_getElem
      · simp
      · intro n h1n h2n
        by_cases hn : i = n
        · subst hn
          simp [List.getElem_set]
        · rw [List.getElem_set_ne hn]
    rw [hset]
  · have hgj : (l.set i (l.get ⟨j, hj⟩))[j] = l[j] :=
      List.getElem_set_ne hij _
    rw [hgj] at h2
    have hgl1 : l.get ⟨i, hi⟩ = l[i] := rfl
    have hgl2 : l.get ⟨j, hj⟩ = l[j] := rfl
    rw [hgl1] at h2
    rw [hgl2] at h1
    by_cases hlj : l[j] = x <;> by_cases hli : l[i] = x <;>
      simp [hlj, hli] at h1 h2 ⊢ <;> omega

theorem exchange_perm (l : List (Int × Nat)) (i j : Nat) :
    (exchange l i j).Perm l := by
  unfold exchange
  rcases ha : List.get? l i with _ | a
  · exact List.Perm.refl l
  · rcases hb : List.get? l j with _ | b
    · exact List.Perm.refl l
    · have hi : i < l.length := lt_length_of_get?_eq_some ha
      have hj : j < l.length := lt_length_of_get?_eq_some hb
      have hae : l.get ⟨i, hi⟩ = a := by
        have := ha
        rw [List.get?_eq_getElem?, List.getElem?_eq_getElem hi] at this
        exact Option.some.inj this
      have hbe : l.get ⟨j, hj⟩ = b := by
        have := hb
        rw [List.get?_eq_getElem?, List.getElem?_eq_getElem hj] at this
        exact Option.some.inj this
      dsimp only
      split
      · have := set_swap_perm l i j hi hj
        rw [hae, hbe] at this
        exact this
      · exact List.Perm.refl l

theorem foldl_exchange_inner_perm (i : Nat) (r : List Nat)
    (acc : List (Int × Nat)) :
    (List.foldl (fun acc2 j => exchange acc2 i j) acc r).Perm acc := by
  induction r generalizing acc with
  | nil => exact List.Perm.refl acc
  | cons j r ih =>
    exact (ih (exchange acc i j)).trans (exchange_perm acc i j)

theorem foldl_exchange_outer_perm (inner : List Nat) (r : List Nat)
    (acc : List (Int × Nat)) :
    (List.foldl
        (fun acc2 i => List.foldl (fun acc3 j => exchange acc3 i j) acc2 inner)
        acc r).Perm acc := by
  induction r generalizing acc with
  | nil => exact List.Perm.refl acc
  | cons i r ih =>
    exact (ih _).trans (foldl_exchange_inner_perm i inner acc)

theorem exchange_sort_perm (l : List (Int × Nat)) :
    (exchange_sort l).Perm l :=
  foldl_exchange_outer_perm (List.range l.length) (List.range l.length) l

end PacmanRust

namespace PacmanRust

theorem candidates_go_snd_sublist (pos target : Position) (map : GameMap)
    (d : Bool) (l : List Nat) :
    ((candidates_go pos target map d l).map Prod.snd).Sublist l := by
  induction l with
  | nil => simp [candidates_go]
  | cons i rest ih =>
    rw [candidates_go]
    split
    · exact ih.trans (List.sublist_cons_self i rest)
    · simpa using ih.cons₂ i

theorem natToDirection_inj (a b : Nat) (ha : a < 4) (hb : b < 4)
    (h : natToDirection a = natToDirection b) : a = b := by
  interval_cases a <;> interval_cases b <;> simp_all [natToDirection]

theorem scan_select_ne_reverse (cur : Nat) (dirs : List Nat) (keep : Direction)
    (hnd : dirs.Nodup) (hlen : 2 ≤ dirs.length)
    (hbound : ∀ d ∈ dirs, d < 4) :
    scan_select cur dirs keep ≠ natToDirection ((cur + 2) % 4) := by
  unfold scan_select
  rcases hf : dirs.find? (fun d => d != (cur + 2) % 4) with _ | d
  · exfalso
    have hall := List.find?_eq_none.mp hf
    match dirs, hnd, hlen, hall with
    | d1 :: d2 :: t, hnd, _, hall =>
      have h1 : d1 = (cur + 2) % 4 := by
        have := hall d1 (by simp)
        simpa using this
      have h2 : d2 = (cur + 2) % 4 := by
        have := hall d2 (by simp)
        simpa using this
      have hne : d1 ≠ d2 := by
        rw [List.nodup_cons] at hnd
        exact fun hcon => hnd.1 (hcon ▸ List.mem_cons_self d2 t)
      exact hne (h1.trans h2.symm)
  · have hp := List.find?_some hf
    have hd : d ≠ (cur + 2) % 4 := bne_iff_ne.mp hp
    have hmem : d ∈ dirs := List.mem_of_find?_eq_some hf
    have hd4 : d < 4 := hbound d hmem
    have hrev4 : (cur + 2) % 4 < 4 := Nat.mod_lt _ (by norm_num)
    intro hcontra
    exact hd (natToDirection_inj d ((cur + 2) % 4) hd4 hrev4 hcontra)

/-- C2: for every ghost state and maze grid, whenever the wall filter leaves
at least two legal candidate headings, `calculate_direction` never selects
the 180-degree reversal of the current heading (the reversal can only be
taken via the single-survivor shortcut, i.e. at a dead end).  The proof
goes through `scan_select_ne_reverse`, which holds for an arbitrary
permutation of the surviving candidates, so it is independent of the order
the distance sort produces. -/
theorem calculate_direction_no_reverse (g : GhostState) (map : GameMap)
    (h2 : 2 ≤ (direction_candidates g map).length) :
    calculate_direction g map ≠ opposite_heading g.entity.direction := by
  unfold calculate_direction opposite_heading
  rw [if_neg (by omega)]
  have hperm : ((exchange_sort (direction_candidates g map)).map Prod.snd).Perm
      ((direction_candidates g map).map Prod.snd) :=
    (exchange_sort_perm (direction_candidates g map)).map Prod.snd
  have hsub := candidates_go_snd_sublist g.entity.position g.target map
    g.can_use_door [0, 1, 2, 3]
  apply scan_select_ne_reverse
  · exact hperm.nodup_iff.mpr (hsub.nodup (by decide))
  · rw [hperm.length_eq, List.length_map]
    exact h2
  · intro d hd
    have : d ∈ (direction_candidates g map).map Prod.snd := hperm.mem_iff.mp hd
    have : d ∈ [0, 1, 2, 3] := hsub.subset this
    simp at this
    omega

/-- A fully open 28x36 session grid. -/
def openMap : GameMap := List.replicate (BOARD_HEIGHT * BOARD_WIDTH) BlockType.nothing

/-- A ghost in open space: at pixel `(300, 300)`, heading Right, chasing
target `(0, 0)`, doors forbidden. -/
def ghostInOpenSpace : GhostState :=
  { entity :=
      { position := ⟨300, 300⟩, speed := 2, direction := .right, facing := 0,
        life_statement := true }
    can_use_door := false
    status := false
    target := ⟨0, 0⟩
    scatter_target := ⟨612, 12⟩
    door_target := ⟨336, 360⟩
    home := ⟨324, 420⟩ }

/-- Witness for `calculate_direction_no_reverse`: in open space all four
headings survive the wall filter, and the chosen heading is not the
reversal of Right. -/
theorem calculate_direction_no_reverse_witness :
    2 ≤ (direction_candidates ghostInOpenSpace openMap).length ∧
      calculate_direction ghostInOpenSpace openMap ≠
        opposite_heading ghostInOpenSpace.entity.direction :=
  ⟨by decide, calculate_direction_no_reverse ghostInOpenSpace openMap (by decide)⟩

end PacmanRust
